import Mathlib

/-!
Verification of the scribe load-generator / streaming-telemetry utility.

The development shallowly embeds the TypeScript sources: the per-session
state of `typeChunk` (read cursor, line counter, in-flight send timestamps,
running latency statistics, chart buffer, promise resolution) becomes an
explicit state record, and the three entry points that mutate it — the
`type()` scheduling tick, the `ss.on("op")` acknowledgement handler and the
`metricsInterval` timer — become state-transition functions.  A run of the
system is a fold of those transitions over an explicit event list; the
module-level `play` flag travels alongside the session state.

JavaScript numbers are embedded as `Rat` (exact arithmetic) and wall-clock
times as `Int` (milliseconds); fields initialised to `undefined` are
`Option`s.  The source's `latencyStdDev` stores
`Math.sqrt(stdDev/(samples-1))`; the embedding tracks the radicand
(`latencyStdDevSq`) so every definition stays computable — `Real.sqrt` is
determined by it, so statements about the stored value transfer.
-/

namespace Scribe

/-- Line 8 of the source: `doc.save` is requested every 5 completed lines. -/
def saveLineFrequency : Nat := 5

/-- Line 10: latency statistics only start this many ms after `startTime`. -/
def RunningCalculationDelay : Int := 10000

/-- Line 12: number of slots of the chart buffer. -/
def ChartSamples : Nat := 10

/-- Local constant of `typeChunk`: a new rate sample is triggered after one
second has elapsed. -/
def samplingRate : Int := 1000

/-- Modelled from the spec: `utils.RateCounter` is imported from the client
utilities, which are not among the sources.  The spec describes it as
{accumulatedValue, sampleCount, minSeen, maxSeen, windowStartTime} where
`reset` zeroes the fields and restarts the window, `increment` adds to the
accumulator and updates min/max/sampleCount, `elapsed` is the time since the
last reset and `getRate` is the accumulated value divided by the elapsed
time (total division, so a zero-width window still yields a defined value). -/
structure RateCounter where
  value : Rat
  samples : Nat
  minSeen : Option Rat
  maxSeen : Option Rat
  windowStart : Int
deriving DecidableEq

def RateCounter.reset (now : Int) : RateCounter :=
  { value := 0, samples := 0, minSeen := none, maxSeen := none, windowStart := now }

def RateCounter.increment (c : RateCounter) (x : Rat) : RateCounter :=
  { c with
    value := c.value + x
    samples := c.samples + 1
    minSeen := some (match c.minSeen with | none => x | some m => min m x)
    maxSeen := some (match c.maxSeen with | none => x | some m => max m x) }

def RateCounter.elapsed (c : RateCounter) (now : Int) : Int := now - c.windowStart

def RateCounter.getValue (c : RateCounter) : Rat := c.value

def RateCounter.getSamples (c : RateCounter) : Nat := c.samples

def RateCounter.getMinimum (c : RateCounter) : Option Rat := c.minSeen

def RateCounter.getMaximum (c : RateCounter) : Option Rat := c.maxSeen

def RateCounter.getRate (c : RateCounter) (now : Int) : Rat :=
  c.value / ((c.elapsed now : Int) : Rat)

/-- Modelled from the spec: `utils.Histogram` is imported from the client
utilities, which are not among the sources.  The spec describes a fixed
bucket width set at construction and a fixed number of buckets created
empty; `add v` increments bucket `floor (v / width)`, clamped below at
bucket 0 for negative input and above at the last bucket.  The bucket count
is not visible in the sources; it is fixed by `histogramBucketCount` here
and nothing proved below depends on it. -/
structure Histogram where
  increment : Rat
  buckets : List Nat
deriving DecidableEq

def histogramBucketCount : Nat := 10

def Histogram.create (width : Rat) : Histogram :=
  { increment := width, buckets := List.replicate histogramBucketCount 0 }

def Histogram.add (h : Histogram) (v : Rat) : Histogram :=
  let idx : Nat := min (v / h.increment).floor.toNat (h.buckets.length - 1)
  { h with buckets := h.buckets.set idx (h.buckets.getD idx 0 + 1) }

/-- The `IScribeMetrics` record (lines 47-70 of the source).  Fields that
the source initialises to `undefined` are `Option`s.  `latencyStdDevSq`
holds the radicand of the source's `latencyStdDev` (see the module
comment). -/
structure IScribeMetrics where
  latencyAverage : Option Rat
  latencyStdDevSq : Option Rat
  latencyMinimum : Option Rat
  latencyMaximum : Option Rat
  ackRate : Option Rat
  typingRate : Option Rat
  typingProgress : Option Rat
  ackProgress : Option Rat
  time : Int
  textLength : Nat
  pingAverage : Option Rat
  pingMaximum : Option Rat
  typingInterval : Rat
deriving DecidableEq

/-- `IChartData` (lines 18-25).  The source's `label` slot holds an
`HH:MM:SS` string built by `padTime` from the tick's wall-clock time; the
embedding stores the raw tick time, which carries the same information. -/
structure IChartData where
  minimum : List Rat
  maximum : List Rat
  mean : List Rat
  stdDev : List Rat
  label : List Int
  index : Nat
deriving DecidableEq

/-- `createChartData` (lines 77-93): all slots zero-initialised, index 0. -/
def createChartData (length : Nat) : IChartData :=
  { index := 0
    label := List.replicate length 0
    maximum := List.replicate length 0
    mean := List.replicate length 0
    minimum := List.replicate length 0
    stdDev := List.replicate length 0 }

/-- `rearrange` (lines 184-188): `splice(0, index + 1)` removes the first
`index + 1` entries and returns them; the function returns the remainder
followed by the removed block. -/
def rearrange {α : Type} (array : List α) (index : Nat) : List α :=
  array.drop (index + 1) ++ array.take (index + 1)

/-- `combine` (lines 190-197).  Every call site pairs lists of equal length
(all come from `rearrange` of same-length chart arrays), where the source's
index loop and `zipWith` agree. -/
def combine (first second : List Rat) (f : Rat → Rat → Rat) : List Rat :=
  List.zipWith f first second

/-- The chart-configuration object built by `getChartConfiguration`
(lines 95-159), restricted to its data series; the fixed layout/legend/title
constants are presentation only and carry no state. -/
structure ChartConfiguration where
  categoryNames : List Int
  mean : List Rat
  plusStddev : List Rat
  negStddev : List Rat
  minimum : List Rat
  maximum : List Rat
deriving DecidableEq

def getChartConfiguration (data : IChartData) : ChartConfiguration :=
  let mean := rearrange data.mean data.index
  let stddev := rearrange data.stdDev data.index
  let plusStddev := combine mean stddev (fun a b => a + b)
  let negStddev := combine mean stddev (fun a b => a - b)
  { categoryNames := rearrange data.label data.index
    mean := mean
    plusStddev := plusStddev
    negStddev := negStddev
    minimum := rearrange data.minimum data.index
    maximum := rearrange data.maximum data.index }

/-- An operation submitted to the shared string by `type()`.  `insertText`
carries `chunk.charAt(readPosition)` as a character code, `none` when the
read position is past the end (JS `charAt` yields the empty string there).
The insertion position is resolved by the external merge tree
(`posFromRelativePos`) and not modelled. -/
inductive SharedStringOp where
  | insertMarker : SharedStringOp
  | insertText : Option Nat → SharedStringOp
deriving DecidableEq

/-- The part of `core.ISequencedObjectMessage` that the handler reads.
`clientIdMatches` stands for `message.clientId === doc.clientId`; `ping` is
`traces[7].timestamp - traces[0].timestamp` when the message carries eight
traces with last service `"ping"`, and `none` otherwise. -/
structure OpMessage where
  clientSequenceNumber : Nat
  clientIdMatches : Bool
  ping : Option Rat
deriving DecidableEq

/-- The Welford-style latency accumulator threaded through the handler:
`n` and `sum` live in `latencyCounter` (`getSamples` / `getValue`), `mean`
and `m2` in the handler's `mean` and `stdDev` variables. -/
structure LatencyAcc where
  n : Nat
  sum : Rat
  mean : Rat
  m2 : Rat
deriving DecidableEq

/-- Lines 370-381 of the source, abstracted over the round-trip sample:
increment the sample count and the accumulated value, recompute the average
as `getValue() / samples`, and push the Welford update
`stdDev + (x - newAverage) * (x - oldMean)` into the accumulator. -/
def latencyUpdate (x : Rat) (a : LatencyAcc) : LatencyAcc :=
  let n := a.n + 1
  let sum := a.sum + x
  let avg := sum / ((n : Nat) : Rat)
  { n := n, sum := sum, mean := avg, m2 := a.m2 + (x - avg) * (x - a.mean) }

/-- Line 377-378: `samples > 1 ? stdDev / (samples - 1) : 0`, the radicand
of the reported standard deviation. -/
def LatencyAcc.reportedVariance (a : LatencyAcc) : Rat :=
  if 1 < a.n then a.m2 / (((a.n : Nat) : Rat) - 1) else 0

/-- Per-session state of one `typeChunk` run: the local variables of the
promise executor plus instrumentation logs recording the calls made to the
external collaborators (operations submitted, saves requested, metric
snapshots handed to the callbacks, chart configurations published). -/
structure ChunkSession where
  /-- The normalized chunk, as character codes. -/
  chunk : List Nat
  startTime : Int
  readPosition : Nat
  lineNumber : Nat
  /-- The `messageStart` array, used with `push`/`pop`: `push` appends at
  the end, `pop` removes from the end. -/
  messageStart : List Int
  /-- The handler's `mean` variable (line 324). -/
  mean : Rat
  /-- The handler's `stdDev` accumulator (line 325). -/
  stdDev : Rat
  metrics : IScribeMetrics
  ackCounter : RateCounter
  latencyCounter : RateCounter
  pingCounter : RateCounter
  typingCounter : RateCounter
  histogram : Histogram
  chartData : IChartData
  /-- `resolve(metrics)` has run. -/
  resolved : Bool
  /-- `clearInterval(metricsInterval)` has run. -/
  intervalCleared : Bool
  /-- The typing scheduler saw `type()` return false and stopped. -/
  typingStopped : Bool
  /-- Line numbers at which `doc.save` was requested. -/
  saves : List Nat
  /-- Operations submitted to the shared string, oldest first. -/
  ops : List SharedStringOp
  /-- Values passed to `callback`; the source passes `clone(metrics)`, so
  each entry is a value snapshot, never the live record. -/
  callbackLog : List IScribeMetrics
  /-- Values passed to `queueCallback` (passed by reference in the source). -/
  queueCallbackLog : List IScribeMetrics
  /-- Chart configurations published via `performanceData.set`. -/
  performanceLog : List ChartConfiguration
  /-- Instrumentation: acknowledgements attributed to this session (guard of
  the `ss.on("op")` handler satisfied). -/
  ackedOps : Nat
  /-- Instrumentation: the handler popped an empty `messageStart`; the JS
  original would compute `now - undefined = NaN` there and poison every
  latency figure, which the embedding does not track further. -/
  nanLatency : Bool
deriving DecidableEq

/-- Modelled from the spec: `MergeTree.loadSegments` lives in the client
API, which is not among the sources.  The source concatenates the `text` of
the segments the loader produced from `input`, reproducing `input`'s
character sequence, so normalization is the identity on it. -/
def normalizeText (input : List Nat) : List Nat := input

/-- The `metrics` literal of lines 297-311. -/
def initMetrics (chunkLen : Nat) (intervalTime : Rat) : IScribeMetrics :=
  { latencyAverage := none
    latencyStdDevSq := none
    latencyMinimum := none
    latencyMaximum := none
    ackRate := none
    typingRate := none
    typingProgress := none
    ackProgress := none
    time := 0
    textLength := chunkLen
    pingAverage := none
    pingMaximum := none
    typingInterval := intervalTime }

/-- Line 293: `histogramRange = 5`. -/
def histogramRange : Rat := 5

/-- The state set up by `typeChunk` before any event fires (lines 287-328):
counters reset, empty send list, zeroed Welford variables, fresh chart
data, cursor at 0. -/
def initSession (chunkText : List Nat) (intervalTime : Rat) (startTime : Int) :
    ChunkSession :=
  let chunk := normalizeText chunkText
  { chunk := chunk
    startTime := startTime
    readPosition := 0
    lineNumber := 0
    messageStart := []
    mean := 0
    stdDev := 0
    metrics := initMetrics chunk.length intervalTime
    ackCounter := RateCounter.reset startTime
    latencyCounter := RateCounter.reset startTime
    pingCounter := RateCounter.reset startTime
    typingCounter := RateCounter.reset startTime
    histogram := Histogram.create histogramRange
    chartData := createChartData ChartSamples
    resolved := false
    intervalCleared := false
    typingStopped := false
    saves := []
    ops := []
    callbackLog := []
    queueCallbackLog := []
    performanceLog := []
    ackedOps := 0
    nanLatency := false }

/-- `trackOperation` (lines 405-414): update the typing-rate window, run the
wrapped string operation, then `messageStart.push(Date.now())`. -/
def trackOperation (now : Int) (fn : ChunkSession → ChunkSession)
    (s : ChunkSession) : ChunkSession :=
  let tc := s.typingCounter.increment 1
  let s1 :=
    if samplingRate < tc.elapsed now then
      { s with typingCounter := RateCounter.reset now
               metrics := { s.metrics with typingRate := some (tc.getRate now * 1000) } }
    else { s with typingCounter := tc }
  let s2 := fn s1
  { s2 with messageStart := s2.messageStart ++ [now] }

/-- One scheduling tick of the source's `type()` (lines 416-461; renamed
because the embedding passes the state explicitly).  Returns the source's
boolean — `false` stops the scheduler — with the updated session.  A
carriage return is skipped (cursor advanced, next code read); a newline
becomes a paragraph-marker insertion with line accounting and the periodic
save; any other code becomes a text insertion.  `metrics.typingProgress` is
set from the advanced cursor. -/
def typeStep (play : Bool) (now : Int) (s : ChunkSession) :
    Bool × ChunkSession :=
  if s.readPosition = s.chunk.length then
    (false, { s with queueCallbackLog := s.queueCallbackLog ++ [s.metrics] })
  else if play = false then
    (true, s)
  else
    let code0 := s.chunk.get? s.readPosition
    let rp := if code0 = some 13 then s.readPosition + 1 else s.readPosition
    let code := if code0 = some 13 then s.chunk.get? rp else code0
    let s1 := { s with readPosition := rp }
    let s2 := trackOperation now (fun t =>
      if code = some 10 then
        let ln := t.lineNumber + 1
        { t with ops := t.ops ++ [SharedStringOp.insertMarker]
                 readPosition := t.readPosition + 1
                 lineNumber := ln
                 saves := if ln % saveLineFrequency = 0 then t.saves ++ [ln] else t.saves }
      else
        { t with ops := t.ops ++ [SharedStringOp.insertText (t.chunk.get? t.readPosition)]
                 readPosition := t.readPosition + 1 }) s1
    (true, { s2 with metrics := { s2.metrics with
      typingProgress := some ((s2.readPosition : Rat) / ((s2.chunk.length : Nat) : Rat)) } })

/-- Projection of the session onto the Welford accumulator. -/
def ChunkSession.latencyAcc (s : ChunkSession) : LatencyAcc :=
  { n := s.latencyCounter.getSamples
    sum := s.latencyCounter.getValue
    mean := s.mean
    m2 := s.stdDev }

/-- Lines 350-355 of the handler: `ackCounter.increment(1)` and the
one-second ack-rate window. -/
def ackWindowPhase (now : Int) (s : ChunkSession) : ChunkSession :=
  let ac := s.ackCounter.increment 1
  if samplingRate < ac.elapsed now then
    { s with ackCounter := RateCounter.reset now
             metrics := { s.metrics with ackRate := some (ac.getRate now * 1000) } }
  else { s with ackCounter := ac }

/-- Lines 357-382: the delay-gated running calculation.  Outside the gate
nothing happens.  Inside it, one pending send timestamp is popped from the
end of `messageStart` and the round trip feeds the latency counter, the
optional ping figures, the histogram and the Welford state; the latency
metrics are recomputed.  Popping an empty array is marked by `nanLatency`
(the JS original would compute `NaN` round trips from `undefined`). -/
def latencyPhase (now : Int) (message : OpMessage) (s : ChunkSession) :
    ChunkSession :=
  if RunningCalculationDelay < now - s.startTime then
    match s.messageStart.getLast? with
    | some sendTime =>
      let roundTrip : Rat := ((now - sendTime : Int) : Rat)
      let lc := s.latencyCounter.increment roundTrip
      let pc := match message.ping with
        | some p => s.pingCounter.increment p
        | none => s.pingCounter
      let acc := latencyUpdate roundTrip s.latencyAcc
      { s with
        messageStart := s.messageStart.dropLast
        latencyCounter := lc
        pingCounter := pc
        histogram := s.histogram.add roundTrip
        mean := acc.mean
        stdDev := acc.m2
        metrics := { s.metrics with
          pingAverage := some (pc.getValue / ((pc.getSamples : Nat) : Rat))
          pingMaximum := pc.getMaximum
          latencyMinimum := lc.getMinimum
          latencyMaximum := lc.getMaximum
          latencyAverage := some acc.mean
          latencyStdDevSq := some acc.reportedVariance } }
    | none =>
      { s with nanLatency := true, messageStart := s.messageStart.dropLast }
  else s

/-- Lines 384-392: once a message with `clientSequenceNumber >= chunk.length`
arrives, the metrics interval is cleared, the elapsed-time metric is set and
the promise resolves. -/
def completionPhase (now : Int) (message : OpMessage) (s : ChunkSession) :
    ChunkSession :=
  if s.chunk.length ≤ message.clientSequenceNumber then
    { s with resolved := true
             intervalCleared := true
             metrics := { s.metrics with time := now - s.startTime } }
  else s

/-- Lines 394-397: `metrics.ackProgress` is recomputed and
`callback(clone(metrics))` fires — the clone makes the logged entry a value
snapshot. -/
def progressCallbackPhase (message : OpMessage) (s : ChunkSession) :
    ChunkSession :=
  let s1 := { s with metrics := { s.metrics with
    ackProgress := some ((message.clientSequenceNumber : Rat) / ((s.chunk.length : Nat) : Rat)) } }
  { s1 with callbackLog := s1.callbackLog ++ [s1.metrics] }

/-- The `ss.on("op")` handler (lines 347-399) at wall-clock time `now`.
Messages with a zero (falsy) client sequence number or a foreign client id
are ignored.  `ackedOps` instruments the count of attributed
acknowledgements. -/
def ackStep (now : Int) (message : OpMessage) (s : ChunkSession) :
    ChunkSession :=
  if message.clientSequenceNumber ≠ 0 ∧ message.clientIdMatches = true then
    progressCallbackPhase message
      (completionPhase now message
        (latencyPhase now message
          (ackWindowPhase now { s with ackedOps := s.ackedOps + 1 })))
  else s

/-- One firing of the `metricsInterval` timer (lines 329-345).  A cleared
interval no longer fires.  The body runs only while `latencyStdDev` is
defined; it writes the current latency metrics into the chart slot at the
write index, publishes the chart configuration, and advances the index
modulo the buffer length.  In the guarded branch every latency metric is
defined (they are always set together), so the total `getD 0` reads never
see `none`. -/
def metricsTick (now : Int) (s : ChunkSession) : ChunkSession :=
  if s.intervalCleared then s
  else if s.metrics.latencyStdDevSq.isSome then
    let i := s.chartData.index
    let cd := { s.chartData with
      label := s.chartData.label.set i now
      maximum := s.chartData.maximum.set i (s.metrics.latencyMaximum.getD 0)
      mean := s.chartData.mean.set i (s.metrics.latencyAverage.getD 0)
      minimum := s.chartData.minimum.set i (s.metrics.latencyMinimum.getD 0)
      stdDev := s.chartData.stdDev.set i (s.metrics.latencyStdDevSq.getD 0) }
    { s with
      performanceLog := s.performanceLog ++ [getChartConfiguration cd]
      chartData := { cd with index := (cd.index + 1) % cd.maximum.length } }
  else s

/-- The events that can reach a session: a toggle of the module-level play
flag, a tick of the typing scheduler, an incoming sequenced-op message, and
a tick of the metrics timer; each observable event carries its wall-clock
time. -/
inductive Event where
  | togglePlay : Event
  | typeTick : Int → Event
  | ack : Int → OpMessage → Event
  | metricsTick : Int → Event
deriving DecidableEq

/-- The module-level `play` flag (line 6, initially `false`) together with
the state of one `typeChunk` session. -/
structure GlobalState where
  play : Bool
  session : ChunkSession
deriving DecidableEq

/-- `togglePlay` (lines 30-32). -/
def togglePlay (g : GlobalState) : GlobalState := { g with play := !g.play }

/-- The typing scheduler around `type()` (lines 463-483): both the
`setImmediate` loop and the `setInterval` loop call `type()` once per tick
and stop rescheduling as soon as it returns `false`. -/
def typeTickStep (play : Bool) (now : Int) (s : ChunkSession) : ChunkSession :=
  if s.typingStopped then s
  else
    let r := typeStep play now s
    if r.1 then r.2 else { r.2 with typingStopped := true }

def step (g : GlobalState) : Event → GlobalState
  | Event.togglePlay => togglePlay g
  | Event.typeTick now => { g with session := typeTickStep g.play now g.session }
  | Event.ack now m => { g with session := ackStep now m g.session }
  | Event.metricsTick now => { g with session := metricsTick now g.session }

/-- A run of the system: fold the events over the state. -/
def run (g : GlobalState) (es : List Event) : GlobalState := es.foldl step g

def initGlobal (chunkText : List Nat) (intervalTime : Rat) (startTime : Int) :
    GlobalState :=
  { play := false, session := initSession chunkText intervalTime startTime }

/-- The multi-writer branch of `typeFile` (lines 213-248).  The promise
chain is embedded in `Except` over an opaque error type `E`: `getChunks`
models `doc.getRoot().get("chunks")`, `getView` the `chunkMap.getView()`
stage and `runChunks` the bounded queue that types every chunk and resolves
with the metrics of the first completion; the trailing `.catch` maps any
failure of the chain to `null` (`none`). -/
def typeFileMultiWriter {E M V : Type} (getChunks : Except E M)
    (getView : M → Except E V)
    (runChunks : V → Except E IScribeMetrics) : Option IScribeMetrics :=
  match Except.bind getChunks (fun m => Except.bind (getView m) runChunks) with
  | Except.error _ => none
  | Except.ok metrics => some metrics

/-- `typeFile` (lines 199-249): one writer types the file directly;
otherwise the multi-writer dispatch runs. -/
def typeFile {E M V : Type} (writers : Nat) (singleRun : IScribeMetrics)
    (getChunks : Except E M) (getView : M → Except E V)
    (runChunks : V → Except E IScribeMetrics) : Option IScribeMetrics :=
  if writers = 1 then some singleRun
  else typeFileMultiWriter getChunks getView runChunks

/-- Attributed acknowledgements of a trace: the op messages that pass the
handler's guard, in arrival order. -/
def attributedAcks (es : List Event) : List OpMessage :=
  es.filterMap fun e =>
    match e with
    | Event.ack _ m =>
      if m.clientSequenceNumber ≠ 0 ∧ m.clientIdMatches = true then some m else none
    | _ => none

def isAttributedAck (e : Event) : Bool :=
  match e with
  | Event.ack _ m => decide (m.clientSequenceNumber ≠ 0 ∧ m.clientIdMatches = true)
  | _ => false

def ackCountAttr (es : List Event) : Nat := (es.filter isAttributedAck).length

def isToggle (e : Event) : Bool :=
  match e with
  | Event.togglePlay => true
  | _ => false

def metricsTickCount (es : List Event) : Nat :=
  (es.filter fun e => match e with | Event.metricsTick _ => true | _ => false).length

/-- An acknowledgement event is processed after the running-calculation
delay relative to session start time `t0`. -/
def ackPostDelay (t0 : Int) (e : Event) : Bool :=
  match e with
  | Event.ack now _ => decide (RunningCalculationDelay < now - t0)
  | _ => true

/-- All acknowledgement events of `e` carry a client sequence number within
the corpus length `L`. -/
def ackCsnBounded (L : Nat) (e : Event) : Bool :=
  match e with
  | Event.ack _ m => decide (m.clientSequenceNumber ≤ L)
  | _ => true

/-- The normalized chunk does not end in a carriage return. -/
def noTrailingCR (chunk : List Nat) : Prop := chunk.getLast? ≠ some 13

/-- A progress metric that has been set lies in `[0, 1]`. -/
def inUnitInterval : Option Rat → Prop
  | none => True
  | some v => 0 ≤ v ∧ v ≤ 1

/-- Batch mean of a sample list. -/
def batchMean (xs : List Rat) : Rat := xs.sum / ((xs.length : Nat) : Rat)

/-- Batch sample variance, the `(n-1)` form (for `n = 1` the total division
by zero yields 0, matching the estimator's explicit 0). -/
def batchSampleVariance (xs : List Rat) : Rat :=
  (xs.map fun x => (x - batchMean xs) ^ 2).sum / (((xs.length : Nat) : Rat) - 1)

/-- Feeding a sample list to the handler's running estimator, oldest
first. -/
def runEstimator (xs : List Rat) : LatencyAcc :=
  xs.foldl (fun a x => latencyUpdate x a) { n := 0, sum := 0, mean := 0, m2 := 0 }

/-- The chart buffer holds exactly `ChartSamples` slots and a valid write
index. -/
def chartSlotsInvariant (d : IChartData) : Prop :=
  d.minimum.length = ChartSamples ∧ d.maximum.length = ChartSamples ∧
  d.mean.length = ChartSamples ∧ d.stdDev.length = ChartSamples ∧
  d.label.length = ChartSamples ∧ d.index < ChartSamples

/-! ### General lemmas about runs -/

theorem run_nil (g : GlobalState) : run g [] = g := rfl

theorem run_cons (g : GlobalState) (e : Event) (es : List Event) :
    run g (e :: es) = run (step g e) es := rfl

theorem run_append (g : GlobalState) (es es' : List Event) :
    run g (es ++ es') = run (run g es) es' :=
  List.foldl_append step g es es'

/-- Fold an invariant over a run, with a side condition on the events. -/
theorem run_invariant (P : GlobalState → Prop) (Q : Event → Prop)
    (hstep : ∀ g e, Q e → P g → P (step g e)) :
    ∀ (es : List Event) (g : GlobalState),
      (∀ e ∈ es, Q e) → P g → P (run g es) := by
  intro es
  induction es with
  | nil => intro g _ hp; exact hp
  | cons e es ih =>
    intro g hq hp
    rw [run_cons]
    exact ih _ (fun x hx => hq x (List.mem_cons_of_mem _ hx))
      (hstep g e (hq e (List.mem_cons_self _ _)) hp)

/-! ### Frame lemmas for the three transition functions -/

theorem ackWindowPhase_frame (now : Int) (s : ChunkSession) :
    (ackWindowPhase now s).chunk = s.chunk ∧
    (ackWindowPhase now s).startTime = s.startTime ∧
    (ackWindowPhase now s).ops = s.ops ∧
    (ackWindowPhase now s).messageStart = s.messageStart ∧
    (ackWindowPhase now s).resolved = s.resolved ∧
    (ackWindowPhase now s).intervalCleared = s.intervalCleared ∧
    (ackWindowPhase now s).callbackLog = s.callbackLog ∧
    (ackWindowPhase now s).chartData = s.chartData ∧
    (ackWindowPhase now s).readPosition = s.readPosition ∧
    (ackWindowPhase now s).lineNumber = s.lineNumber ∧
    (ackWindowPhase now s).ackedOps = s.ackedOps ∧
    (ackWindowPhase now s).metrics.typingProgress = s.metrics.typingProgress ∧
    (ackWindowPhase now s).metrics.ackProgress = s.metrics.ackProgress := by
  by_cases h : samplingRate < (s.ackCounter.increment 1).elapsed now <;>
    simp [ackWindowPhase, h]

theorem latencyPhase_frame (now : Int) (m : OpMessage) (s : ChunkSession) :
    (latencyPhase now m s).chunk = s.chunk ∧
    (latencyPhase now m s).startTime = s.startTime ∧
    (latencyPhase now m s).ops = s.ops ∧
    (latencyPhase now m s).resolved = s.resolved ∧
    (latencyPhase now m s).intervalCleared = s.intervalCleared ∧
    (latencyPhase now m s).callbackLog = s.callbackLog ∧
    (latencyPhase now m s).chartData = s.chartData ∧
    (latencyPhase now m s).readPosition = s.readPosition ∧
    (latencyPhase now m s).lineNumber = s.lineNumber ∧
    (latencyPhase now m s).ackedOps = s.ackedOps ∧
    (latencyPhase now m s).metrics.typingProgress = s.metrics.typingProgress ∧
    (latencyPhase now m s).metrics.ackProgress = s.metrics.ackProgress := by
  by_cases h : RunningCalculationDelay < now - s.startTime
  · rcases h2 : s.messageStart.getLast? with _ | t <;> simp [latencyPhase, h, h2]
  · simp [latencyPhase, h]

theorem completionPhase_frame (now : Int) (m : OpMessage) (s : ChunkSession) :
    (completionPhase now m s).chunk = s.chunk ∧
    (completionPhase now m s).startTime = s.startTime ∧
    (completionPhase now m s).ops = s.ops ∧
    (completionPhase now m s).messageStart = s.messageStart ∧
    (completionPhase now m s).callbackLog = s.callbackLog ∧
    (completionPhase now m s).chartData = s.chartData ∧
    (completionPhase now m s).readPosition = s.readPosition ∧
    (completionPhase now m s).lineNumber = s.lineNumber ∧
    (completionPhase now m s).ackedOps = s.ackedOps ∧
    (completionPhase now m s).metrics.typingProgress = s.metrics.typingProgress ∧
    (completionPhase now m s).metrics.ackProgress = s.metrics.ackProgress := by
  by_cases h : s.chunk.length ≤ m.clientSequenceNumber <;> simp [completionPhase, h]

theorem progressCallbackPhase_frame (m : OpMessage) (s : ChunkSession) :
    (progressCallbackPhase m s).chunk = s.chunk ∧
    (progressCallbackPhase m s).startTime = s.startTime ∧
    (progressCallbackPhase m s).ops = s.ops ∧
    (progressCallbackPhase m s).messageStart = s.messageStart ∧
    (progressCallbackPhase m s).resolved = s.resolved ∧
    (progressCallbackPhase m s).intervalCleared = s.intervalCleared ∧
    (progressCallbackPhase m s).chartData = s.chartData ∧
    (progressCallbackPhase m s).readPosition = s.readPosition ∧
    (progressCallbackPhase m s).lineNumber = s.lineNumber ∧
    (progressCallbackPhase m s).ackedOps = s.ackedOps ∧
    (progressCallbackPhase m s).metrics.typingProgress = s.metrics.typingProgress ∧
    (progressCallbackPhase m s).callbackLog =
      s.callbackLog ++ [(progressCallbackPhase m s).metrics] := by
  unfold progressCallbackPhase
  exact ⟨rfl, rfl, rfl, rfl, rfl, rfl, rfl, rfl, rfl, rfl, rfl, rfl⟩

theorem ackStep_chunk (now : Int) (m : OpMessage) (s : ChunkSession) :
    (ackStep now m s).chunk = s.chunk := by
  simp only [ackStep, progressCallbackPhase, completionPhase, latencyPhase, ackWindowPhase]
  repeat' split
  all_goals rfl

theorem ackStep_startTime (now : Int) (m : OpMessage) (s : ChunkSession) :
    (ackStep now m s).startTime = s.startTime := by
  simp only [ackStep, progressCallbackPhase, completionPhase, latencyPhase, ackWindowPhase]
  repeat' split
  all_goals rfl

theorem ackStep_ops (now : Int) (m : OpMessage) (s : ChunkSession) :
    (ackStep now m s).ops = s.ops := by
  simp only [ackStep, progressCallbackPhase, completionPhase, latencyPhase, ackWindowPhase]
  repeat' split
  all_goals rfl

theorem ackStep_readPosition (now : Int) (m : OpMessage) (s : ChunkSession) :
    (ackStep now m s).readPosition = s.readPosition := by
  simp only [ackStep, progressCallbackPhase, completionPhase, latencyPhase, ackWindowPhase]
  repeat' split
  all_goals rfl

theorem ackStep_lineNumber (now : Int) (m : OpMessage) (s : ChunkSession) :
    (ackStep now m s).lineNumber = s.lineNumber := by
  simp only [ackStep, progressCallbackPhase, completionPhase, latencyPhase, ackWindowPhase]
  repeat' split
  all_goals rfl

theorem ackStep_chartData (now : Int) (m : OpMessage) (s : ChunkSession) :
    (ackStep now m s).chartData = s.chartData := by
  simp only [ackStep, progressCallbackPhase, completionPhase, latencyPhase, ackWindowPhase]
  repeat' split
  all_goals rfl

theorem ackStep_typingStopped (now : Int) (m : OpMessage) (s : ChunkSession) :
    (ackStep now m s).typingStopped = s.typingStopped := by
  simp only [ackStep, progressCallbackPhase, completionPhase, latencyPhase, ackWindowPhase]
  repeat' split
  all_goals rfl

theorem ackStep_typingProgress (now : Int) (m : OpMessage) (s : ChunkSession) :
    (ackStep now m s).metrics.typingProgress = s.metrics.typingProgress := by
  simp only [ackStep, progressCallbackPhase, completionPhase, latencyPhase, ackWindowPhase]
  repeat' split
  all_goals rfl

/-- The handler touches `messageStart` only by popping: it never grows. -/
theorem ackStep_messageStart_cases (now : Int) (m : OpMessage) (s : ChunkSession) :
    (ackStep now m s).messageStart = s.messageStart ∨
    (ackStep now m s).messageStart = s.messageStart.dropLast := by
  simp only [ackStep, progressCallbackPhase, completionPhase, latencyPhase, ackWindowPhase]
  repeat' split
  all_goals simp

/-- Exactly one attributed acknowledgement grows `ackedOps`. -/
theorem ackStep_ackedOps (now : Int) (m : OpMessage) (s : ChunkSession) :
    (ackStep now m s).ackedOps =
      s.ackedOps + (if m.clientSequenceNumber ≠ 0 ∧ m.clientIdMatches = true then 1 else 0) := by
  simp only [ackStep, progressCallbackPhase, completionPhase, latencyPhase, ackWindowPhase]
  repeat' split
  all_goals simp

/-- The handler appends one callback snapshot per attributed message and
nothing otherwise. -/
theorem ackStep_callbackLog (now : Int) (m : OpMessage) (s : ChunkSession) :
    (ackStep now m s).callbackLog =
      (if m.clientSequenceNumber ≠ 0 ∧ m.clientIdMatches = true then
        s.callbackLog ++ [(ackStep now m s).metrics] else s.callbackLog) := by
  simp only [ackStep, progressCallbackPhase, completionPhase, latencyPhase, ackWindowPhase]
  repeat' split
  all_goals simp

/-- `resolved` after the handler: a message resolves the session exactly when
it is attributed and its client sequence number has reached the corpus
length. -/
theorem ackStep_resolved (now : Int) (m : OpMessage) (s : ChunkSession) :
    (ackStep now m s).resolved =
      (s.resolved || (decide (m.clientSequenceNumber ≠ 0 ∧ m.clientIdMatches = true)
        && decide (s.chunk.length ≤ m.clientSequenceNumber))) := by
  simp only [ackStep, progressCallbackPhase, completionPhase, latencyPhase, ackWindowPhase]
  repeat' split
  all_goals simp_all

theorem ackStep_intervalCleared (now : Int) (m : OpMessage) (s : ChunkSession) :
    (ackStep now m s).intervalCleared =
      (s.intervalCleared || (decide (m.clientSequenceNumber ≠ 0 ∧ m.clientIdMatches = true)
        && decide (s.chunk.length ≤ m.clientSequenceNumber))) := by
  simp only [ackStep, progressCallbackPhase, completionPhase, latencyPhase, ackWindowPhase]
  repeat' split
  all_goals simp_all

theorem typeStep_chunk (p : Bool) (now : Int) (s : ChunkSession) :
    (typeStep p now s).2.chunk = s.chunk := by
  simp only [typeStep, trackOperation]
  repeat' split
  all_goals rfl

theorem typeStep_startTime (p : Bool) (now : Int) (s : ChunkSession) :
    (typeStep p now s).2.startTime = s.startTime := by
  simp only [typeStep, trackOperation]
  repeat' split
  all_goals rfl

theorem typeStep_resolved (p : Bool) (now : Int) (s : ChunkSession) :
    (typeStep p now s).2.resolved = s.resolved := by
  simp only [typeStep, trackOperation]
  repeat' split
  all_goals rfl

theorem typeStep_intervalCleared (p : Bool) (now : Int) (s : ChunkSession) :
    (typeStep p now s).2.intervalCleared = s.intervalCleared := by
  simp only [typeStep, trackOperation]
  repeat' split
  all_goals rfl

theorem typeStep_callbackLog (p : Bool) (now : Int) (s : ChunkSession) :
    (typeStep p now s).2.callbackLog = s.callbackLog := by
  simp only [typeStep, trackOperation]
  repeat' split
  all_goals rfl

theorem typeStep_ackedOps (p : Bool) (now : Int) (s : ChunkSession) :
    (typeStep p now s).2.ackedOps = s.ackedOps := by
  simp only [typeStep, trackOperation]
  repeat' split
  all_goals rfl

theorem typeStep_chartData (p : Bool) (now : Int) (s : ChunkSession) :
    (typeStep p now s).2.chartData = s.chartData := by
  simp only [typeStep, trackOperation]
  repeat' split
  all_goals rfl

theorem typeStep_ackProgress (p : Bool) (now : Int) (s : ChunkSession) :
    (typeStep p now s).2.metrics.ackProgress = s.metrics.ackProgress := by
  simp only [typeStep, trackOperation]
  repeat' split
  all_goals rfl

/-- One tick grows `ops` and `messageStart` by the same amount. -/
theorem typeStep_opsBalance (p : Bool) (now : Int) (s : ChunkSession) :
    (typeStep p now s).2.messageStart.length + s.ops.length
      = (typeStep p now s).2.ops.length + s.messageStart.length := by
  simp only [typeStep, trackOperation]
  repeat' split
  all_goals simp
  all_goals omega

theorem metricsTick_session_frame (now : Int) (s : ChunkSession) :
    (metricsTick now s).chunk = s.chunk ∧
    (metricsTick now s).startTime = s.startTime ∧
    (metricsTick now s).ops = s.ops ∧
    (metricsTick now s).messageStart = s.messageStart ∧
    (metricsTick now s).resolved = s.resolved ∧
    (metricsTick now s).intervalCleared = s.intervalCleared ∧
    (metricsTick now s).callbackLog = s.callbackLog ∧
    (metricsTick now s).readPosition = s.readPosition ∧
    (metricsTick now s).lineNumber = s.lineNumber ∧
    (metricsTick now s).typingStopped = s.typingStopped ∧
    (metricsTick now s).ackedOps = s.ackedOps ∧
    (metricsTick now s).metrics = s.metrics := by
  simp only [metricsTick]
  repeat' split
  all_goals simp

theorem typeTickStep_chunk (p : Bool) (now : Int) (s : ChunkSession) :
    (typeTickStep p now s).chunk = s.chunk := by
  simp only [typeTickStep]
  repeat' split
  all_goals simp [typeStep_chunk]

theorem typeTickStep_startTime (p : Bool) (now : Int) (s : ChunkSession) :
    (typeTickStep p now s).startTime = s.startTime := by
  simp only [typeTickStep]
  repeat' split
  all_goals simp [typeStep_startTime]

theorem typeTickStep_resolved (p : Bool) (now : Int) (s : ChunkSession) :
    (typeTickStep p now s).resolved = s.resolved := by
  simp only [typeTickStep]
  repeat' split
  all_goals simp [typeStep_resolved]

theorem typeTickStep_intervalCleared (p : Bool) (now : Int) (s : ChunkSession) :
    (typeTickStep p now s).intervalCleared = s.intervalCleared := by
  simp only [typeTickStep]
  repeat' split
  all_goals simp [typeStep_intervalCleared]

theorem typeTickStep_callbackLog (p : Bool) (now : Int) (s : ChunkSession) :
    (typeTickStep p now s).callbackLog = s.callbackLog := by
  simp only [typeTickStep]
  repeat' split
  all_goals simp [typeStep_callbackLog]

theorem typeTickStep_ackedOps (p : Bool) (now : Int) (s : ChunkSession) :
    (typeTickStep p now s).ackedOps = s.ackedOps := by
  simp only [typeTickStep]
  repeat' split
  all_goals simp [typeStep_ackedOps]

theorem typeTickStep_chartData (p : Bool) (now : Int) (s : ChunkSession) :
    (typeTickStep p now s).chartData = s.chartData := by
  simp only [typeTickStep]
  repeat' split
  all_goals simp [typeStep_chartData]

theorem typeTickStep_ackProgress (p : Bool) (now : Int) (s : ChunkSession) :
    (typeTickStep p now s).metrics.ackProgress = s.metrics.ackProgress := by
  simp only [typeTickStep]
  repeat' split
  all_goals simp [typeStep_ackProgress]

theorem typeTickStep_opsBalance (p : Bool) (now : Int) (s : ChunkSession) :
    (typeTickStep p now s).messageStart.length + s.ops.length
      = (typeTickStep p now s).ops.length + s.messageStart.length := by
  simp only [typeTickStep]
  repeat' split
  all_goals first
  | omega
  | simpa using typeStep_opsBalance p now s

/-- The chunk and the session start time are constant along every run. -/
theorem run_chunk_startTime (es : List Event) (g : GlobalState) :
    (run g es).session.chunk = g.session.chunk ∧
    (run g es).session.startTime = g.session.startTime := by
  refine run_invariant
    (fun g' => g'.session.chunk = g.session.chunk ∧
      g'.session.startTime = g.session.startTime)
    (fun _ => True) (fun g' e _ hp => ?_) es g (fun _ _ => trivial) ⟨rfl, rfl⟩
  obtain ⟨h1, h2⟩ := hp
  cases e with
  | togglePlay => exact ⟨h1, h2⟩
  | typeTick now =>
    exact ⟨(typeTickStep_chunk _ _ _).trans h1, (typeTickStep_startTime _ _ _).trans h2⟩
  | ack now m =>
    exact ⟨(ackStep_chunk _ _ _).trans h1, (ackStep_startTime _ _ _).trans h2⟩
  | metricsTick now =>
    exact ⟨((metricsTick_session_frame _ _).1).trans h1,
      ((metricsTick_session_frame _ _).2.1).trans h2⟩

theorem ackCountAttr_cons (e : Event) (es : List Event) :
    ackCountAttr (e :: es)
      = (if isAttributedAck e = true then 1 else 0) + ackCountAttr es := by
  simp only [ackCountAttr, List.filter_cons]
  split
  · simp_all
    omega
  · simp_all

/-! ### Claim C1 -/

/-- A run over the two-character chunk `"ab"`: play is toggled on, the two
characters are typed at times 100 and 200, and one attributed
acknowledgement arrives at time 20000 (after the running-calculation
delay). -/
def c1Events : List Event :=
  [Event.togglePlay, Event.typeTick 100, Event.typeTick 200,
   Event.ack 20000 { clientSequenceNumber := 1, clientIdMatches := true, ping := none }]

/-- Claim C1: the claim says each resolved acknowledgement is paired with
the EARLIEST outstanding send (FIFO).  The code evaluated at the failing
input shows otherwise: with sends recorded at times 100 and 200, the
acknowledgement processed at time 20000 pops the send recorded at 200 (the
most recent one, `Array.prototype.pop`), leaving the earlier timestamp 100
outstanding, and reports a round trip of 19800 = 20000 - 200 rather than
the FIFO round trip 19900 = 20000 - 100. -/
theorem claim1_ack_pairs_latest_send :
    (run (initGlobal [97, 98] 0 0) c1Events).session.messageStart = [100] ∧
    (run (initGlobal [97, 98] 0 0) c1Events).session.latencyCounter.getValue = 19800 ∧
    ((19800 : Rat) = 20000 - 200 ∧ ¬ ((19800 : Rat) = 20000 - 100)) := by
  refine ⟨by decide, ?_, by norm_num, by norm_num⟩
  norm_num [c1Events, run, List.foldl, step, initGlobal, initSession, initMetrics,
    normalizeText, typeTickStep, typeStep, trackOperation, ackStep, ackWindowPhase,
    latencyPhase, completionPhase, progressCallbackPhase, RateCounter.reset,
    RateCounter.increment, RateCounter.elapsed, RateCounter.getRate, RateCounter.getValue,
    RateCounter.getSamples, RateCounter.getMinimum, RateCounter.getMaximum, samplingRate,
    RunningCalculationDelay, latencyUpdate, ChunkSession.latencyAcc,
    LatencyAcc.reportedVariance, Histogram.add, Histogram.create, histogramRange,
    histogramBucketCount, saveLineFrequency, createChartData, ChartSamples, togglePlay]

/-! ### Claim C7 -/

/-- Claim C7: while the pause flag is cleared and the cursor has not
reached the end of the corpus, a scheduling tick emits nothing, changes
nothing (in particular the read cursor and line counter are unchanged) and
keeps the scheduler running; and a resume followed by a tick behaves
exactly as a tick from the paused state, i.e. emission continues from the
very cursor position held while paused. -/
theorem claim7_pause_is_frame :
    ∀ (s : ChunkSession) (now t : Int),
      s.readPosition ≠ s.chunk.length →
      typeStep false now s = (true, s) ∧
      (typeStep false now s).2.ops = s.ops ∧
      (typeStep false now s).2.readPosition = s.readPosition ∧
      (typeStep false now s).2.lineNumber = s.lineNumber ∧
      (run { play := false, session := s } [Event.togglePlay, Event.typeTick t]).session
        = typeTickStep true t s := by
  intro s now t h
  have hs : typeStep false now s = (true, s) := by
    simp [typeStep, h]
  exact ⟨hs, by rw [hs], by rw [hs], by rw [hs], rfl⟩

theorem claim7_pause_is_frame_witness :
    typeStep false 5 (initSession [97, 98] 0 0) = (true, initSession [97, 98] 0 0) ∧
    (run { play := false, session := initSession [97, 98] 0 0 }
        [Event.togglePlay, Event.typeTick 7]).session
      = typeTickStep true 7 (initSession [97, 98] 0 0) := by
  have h := claim7_pause_is_frame (initSession [97, 98] 0 0) 5 7 (by decide)
  exact ⟨h.1, h.2.2.2.2⟩

/-! ### Claim C9 -/

/-- Claim C9: in the multi-writer path (`writers ≠ 1`), a failure to
resolve the chunk partition map — whether the keyed lookup of the shared
chunk structure or the view stage fails — makes the whole dispatch resolve
to the defined null result (`none`); the error is swallowed by the trailing
catch, never propagated (the embedding is a total function, so no uncaught
exception exists by construction). -/
theorem claim9_partition_failure_null :
    ∀ (E M V : Type) (writers : Nat) (singleRun : IScribeMetrics) (err : E)
      (getView : M → Except E V)
      (runChunks : V → Except E IScribeMetrics) (m : M),
      writers ≠ 1 →
      typeFile writers singleRun (Except.error err) getView runChunks = none ∧
      typeFile writers singleRun (Except.ok m) (fun _ => Except.error err) runChunks
        = none := by
  intro E M V w sr err gv rc m hw
  constructor
  · simp [typeFile, typeFileMultiWriter, hw, Except.bind]
  · simp [typeFile, typeFileMultiWriter, hw, Except.bind]

theorem claim9_partition_failure_null_witness :
    typeFile 2 (initMetrics 0 0) (Except.error 0)
        (fun u : Unit => Except.ok u) (fun _ : Unit => Except.error 0) = none ∧
    typeFile 2 (initMetrics 0 0) (Except.ok ())
        (fun _ : Unit => Except.error 0) (fun _ : Unit => Except.error (0 : Nat)) = none :=
  claim9_partition_failure_null Nat Unit Unit 2 (initMetrics 0 0) 0
    (fun u => Except.ok u) (fun _ => Except.error 0) () (by decide)

theorem typeStep_false_frame (now : Int) (s : ChunkSession) :
    (typeStep false now s).2.ops = s.ops ∧
    (typeStep false now s).2.messageStart = s.messageStart := by
  simp only [typeStep]
  repeat' split
  all_goals simp_all

theorem typeTickStep_false_frame (now : Int) (s : ChunkSession) :
    (typeTickStep false now s).ops = s.ops ∧
    (typeTickStep false now s).messageStart = s.messageStart := by
  constructor
  · simp only [typeTickStep]
    repeat' split
    all_goals simp [(typeStep_false_frame now s).1]
  · simp only [typeTickStep]
    repeat' split
    all_goals simp [(typeStep_false_frame now s).2]

/-! ### Claim C8 -/

/-- One firing of the metrics interval keeps the chart buffer at exactly
`ChartSamples` slots with a valid write index. -/
theorem metricsTick_chartInv (now : Int) (s : ChunkSession)
    (h : chartSlotsInvariant s.chartData) :
    chartSlotsInvariant (metricsTick now s).chartData := by
  obtain ⟨h1, h2, h3, h4, h5, h6⟩ := h
  simp only [metricsTick]
  repeat' split
  all_goals simp_all [chartSlotsInvariant, List.length_set, ChartSamples]
  omega

/-- Claim C8: `rearrange` of the chart buffer at write index `i` is exactly
the rotation of the stored entries beginning at position `i + 1` — hence a
permutation of them, of unchanged length; the display view built by
`getChartConfiguration` presents the value and label series in that rotated
(oldest-first) order; and along every run the chart buffer keeps exactly
`ChartSamples` slots and a write index below `ChartSamples`. -/
theorem claim8_chart_rotation :
    (∀ (α : Type) (a : List α) (i : Nat), i < a.length →
      rearrange a i = a.rotate (i + 1) ∧
      (rearrange a i).Perm a ∧
      (rearrange a i).length = a.length) ∧
    (∀ d : IChartData, d.index < d.mean.length →
      (getChartConfiguration d).mean = d.mean.rotate (d.index + 1)) ∧
    (∀ d : IChartData, d.index < d.label.length →
      (getChartConfiguration d).categoryNames = d.label.rotate (d.index + 1)) ∧
    (∀ (chunkText : List Nat) (intervalTime : Rat) (startTime : Int) (es : List Event),
      chartSlotsInvariant
        (run (initGlobal chunkText intervalTime startTime) es).session.chartData) := by
  have hrot : ∀ (α : Type) (a : List α) (i : Nat), i < a.length →
      rearrange a i = a.rotate (i + 1) := by
    intro α a i h
    rw [List.rotate_eq_drop_append_take (by omega)]
    rfl
  refine ⟨fun α a i h => ⟨hrot α a i h, ?_, ?_⟩, ?_, ?_, ?_⟩
  · rw [hrot α a i h]
    exact List.rotate_perm a (i + 1)
  · rw [hrot α a i h, List.length_rotate]
  · intro d h
    show rearrange d.mean d.index = _
    exact hrot Rat d.mean d.index h
  · intro d h
    show rearrange d.label d.index = _
    exact hrot Int d.label d.index h
  · intro chunkText intervalTime startTime es
    refine run_invariant (fun g => chartSlotsInvariant g.session.chartData)
      (fun _ => True) ?_ es (initGlobal chunkText intervalTime startTime)
      (fun _ _ => trivial)
      (by show chartSlotsInvariant (createChartData ChartSamples)
          simp [chartSlotsInvariant, createChartData, ChartSamples])
    intro g e _ hp
    cases e with
    | togglePlay => exact hp
    | typeTick now =>
      show chartSlotsInvariant (typeTickStep g.play now g.session).chartData
      rw [typeTickStep_chartData]
      exact hp
    | ack now m =>
      show chartSlotsInvariant (ackStep now m g.session).chartData
      rw [ackStep_chartData]
      exact hp
    | metricsTick now => exact metricsTick_chartInv now g.session hp

theorem claim8_chart_rotation_witness :
    rearrange [5, 6, 7] 1 = ([5, 6, 7] : List Nat).rotate 2 ∧
    (getChartConfiguration (createChartData ChartSamples)).mean
      = (createChartData ChartSamples).mean.rotate 1 ∧
    chartSlotsInvariant
      (run (initGlobal [97] 0 0) [Event.metricsTick 3]).session.chartData := by
  refine ⟨(claim8_chart_rotation.1 Nat [5, 6, 7] 1 (by decide)).1, ?_, ?_⟩
  · exact claim8_chart_rotation.2.1 (createChartData ChartSamples) (by decide)
  · exact claim8_chart_rotation.2.2.2 [97] 0 0 [Event.metricsTick 3]

/-! ### Claim C6 -/

/-- The element at the last valid position is the last element. -/
theorem get?_at_last_pos (l : List Nat) : ∀ (i : Nat), i + 1 = l.length →
    l.get? i = l.getLast? := by
  induction l with
  | nil => intro i h; simp at h
  | cons a as ih =>
    intro i h
    cases as with
    | nil =>
      have : i = 0 := by simpa using h
      subst this
      rfl
    | cons b bs =>
      cases i with
      | zero => simp at h
      | succ j =>
        rw [List.getLast?_cons_cons]
        exact ih j (by simpa using h)

/-- The in-range invariant maintained by the amended claim C6: the read
cursor never passes the corpus end and both progress metrics, once set, lie
in the unit interval. -/
def progressInv (s : ChunkSession) : Prop :=
  s.readPosition ≤ s.chunk.length ∧
  inUnitInterval s.metrics.typingProgress ∧
  inUnitInterval s.metrics.ackProgress

/-- A typing tick keeps the cursor within the corpus, provided the
normalized corpus does not end in a carriage return. -/
theorem typeStep_readPosition_le (p : Bool) (now : Int) (s : ChunkSession)
    (hCR : noTrailingCR s.chunk) (h : s.readPosition ≤ s.chunk.length) :
    (typeStep p now s).2.readPosition ≤ s.chunk.length := by
  by_cases hend : s.readPosition = s.chunk.length
  · simp [typeStep, hend]
  · have hlt : s.readPosition < s.chunk.length := by omega
    by_cases h13 : s.chunk.get? s.readPosition = some 13
    · have hlt2 : s.readPosition + 1 < s.chunk.length := by
        rcases Nat.lt_or_ge (s.readPosition + 1) s.chunk.length with hx | hx
        · exact hx
        · exfalso
          have hEq : s.readPosition + 1 = s.chunk.length := by omega
          have hg := get?_at_last_pos s.chunk s.readPosition hEq
          rw [hg] at h13
          exact hCR h13
      simp only [typeStep, trackOperation]
      repeat' split
      all_goals simp_all
      all_goals omega
    · simp only [typeStep, trackOperation]
      repeat' split
      all_goals simp_all
      all_goals omega

/-- In the emitting branch the typing tick publishes exactly
`readPosition / chunk.length` (over the advanced cursor); in the other
branches the metric is untouched. -/
theorem typeStep_typingProgress_char (p : Bool) (now : Int) (s : ChunkSession)
    (h : s.readPosition ≤ s.chunk.length) :
    (typeStep p now s).2.metrics.typingProgress = s.metrics.typingProgress ∨
    ((typeStep p now s).2.metrics.typingProgress
      = some (((typeStep p now s).2.readPosition : Rat) / ((s.chunk.length : Nat) : Rat))
      ∧ s.readPosition < s.chunk.length) := by
  by_cases hend : s.readPosition = s.chunk.length
  · left; simp [typeStep, hend]
  · by_cases hp : p = false
    · left; simp [typeStep, hend, hp]
    · right
      refine ⟨?_, by omega⟩
      simp only [typeStep, trackOperation]
      repeat' split
      all_goals simp_all

theorem ackStep_ackProgress (now : Int) (m : OpMessage) (s : ChunkSession) :
    (ackStep now m s).metrics.ackProgress =
      (if m.clientSequenceNumber ≠ 0 ∧ m.clientIdMatches = true then
        some ((m.clientSequenceNumber : Rat) / ((s.chunk.length : Nat) : Rat))
      else s.metrics.ackProgress) := by
  simp only [ackStep, progressCallbackPhase, completionPhase, latencyPhase, ackWindowPhase]
  repeat' split
  all_goals simp_all

theorem typeStep_progressInv (p : Bool) (now : Int) (s : ChunkSession)
    (hCR : noTrailingCR s.chunk) (hInv : progressInv s) :
    progressInv (typeStep p now s).2 := by
  obtain ⟨hrp, htp, hap⟩ := hInv
  refine ⟨?_, ?_, ?_⟩
  · rw [typeStep_chunk]
    exact typeStep_readPosition_le p now s hCR hrp
  · rcases typeStep_typingProgress_char p now s hrp with h | ⟨h, hlt⟩
    · rw [h]; exact htp
    · rw [h]
      have hnew : (typeStep p now s).2.readPosition ≤ s.chunk.length :=
        typeStep_readPosition_le p now s hCR hrp
      have hpos : (0 : Rat) < ((s.chunk.length : Nat) : Rat) := by
        have : 0 < s.chunk.length := by omega
        exact_mod_cast this
      refine ⟨by positivity, ?_⟩
      rw [div_le_one hpos]
      exact_mod_cast hnew
  · rw [typeStep_ackProgress]
    exact hap

theorem ackStep_progressInv (now : Int) (m : OpMessage) (s : ChunkSession)
    (hcsn : m.clientSequenceNumber ≤ s.chunk.length) (hInv : progressInv s) :
    progressInv (ackStep now m s) := by
  obtain ⟨hrp, htp, hap⟩ := hInv
  refine ⟨?_, ?_, ?_⟩
  · rw [ackStep_readPosition, ackStep_chunk]
    exact hrp
  · rw [ackStep_typingProgress]
    exact htp
  · rw [ackStep_ackProgress]
    split
    · rename_i hattr
      have hpos : 0 < s.chunk.length :=
        Nat.lt_of_lt_of_le (Nat.pos_of_ne_zero hattr.1) hcsn
      have hposq : (0 : Rat) < ((s.chunk.length : Nat) : Rat) := by exact_mod_cast hpos
      refine ⟨by positivity, ?_⟩
      rw [div_le_one hposq]
      exact_mod_cast hcsn
    · exact hap

/-- A run over the chunk `"a\r"`: the second tick skips the trailing
carriage return, reads past the end and still inserts, pushing the cursor
to 3 in a corpus of length 2. -/
def c6Events : List Event :=
  [Event.togglePlay, Event.typeTick 1, Event.typeTick 2]

/-- Claim C6 counterexample: the claim puts both progress metrics in [0,1]
unconditionally.  The code violates both halves.  Typing: over the
normalized corpus `[97, 13]` (`"a\r"`), after two ticks the cursor is 3 and
`typingProgress = 3/2 > 1` (the carriage-return skip at the last position
advances past the end).  Ack: an attributed acknowledgement carrying client
sequence number 3 on a corpus of length 2 sets `ackProgress = 3/2 > 1` (the
code divides the raw sequence number by the corpus length without any
bound). -/
theorem claim6_counterexample :
    (run (initGlobal [97, 13] 0 0) c6Events).session.metrics.typingProgress
      = some (3 / 2) ∧
    ¬ inUnitInterval
        (run (initGlobal [97, 13] 0 0) c6Events).session.metrics.typingProgress ∧
    (ackStep 5 { clientSequenceNumber := 3, clientIdMatches := true, ping := none }
        (initSession [97, 98] 0 0)).metrics.ackProgress = some (3 / 2) ∧
    ¬ inUnitInterval
        (ackStep 5 { clientSequenceNumber := 3, clientIdMatches := true, ping := none }
          (initSession [97, 98] 0 0)).metrics.ackProgress := by
  have h1 : (run (initGlobal [97, 13] 0 0) c6Events).session.metrics.typingProgress
      = some (3 / 2) := by
    norm_num [c6Events, run, List.foldl, step, initGlobal, initSession, initMetrics,
      normalizeText, typeTickStep, typeStep, trackOperation, RateCounter.reset,
      RateCounter.increment, RateCounter.elapsed, RateCounter.getRate, samplingRate,
      saveLineFrequency, togglePlay]
    split
    · simp_all
    · norm_num
  have h2 : (ackStep 5 { clientSequenceNumber := 3, clientIdMatches := true, ping := none }
        (initSession [97, 98] 0 0)).metrics.ackProgress = some (3 / 2) := by
    norm_num [ackStep, progressCallbackPhase, completionPhase, latencyPhase,
      ackWindowPhase, initSession, initMetrics, normalizeText, RateCounter.reset,
      RateCounter.increment, RateCounter.elapsed, RateCounter.getRate, samplingRate,
      RunningCalculationDelay]
  refine ⟨h1, ?_, h2, ?_⟩
  · rw [h1]
    norm_num [inUnitInterval]
  · rw [h2]
    norm_num [inUnitInterval]

/-- Claim C6, amended: the progress metrics lie in [0,1] throughout any run
provided (a) the normalized corpus does not end in a carriage return (a
trailing CR makes the cursor overshoot the corpus end, as the
counterexample shows) and (b) every acknowledgement's client sequence
number is bounded by the corpus length, i.e. the session's own operations
are the only messages of that client (a larger sequence number is divided
by the corpus length unchecked).  Under these conditions the read cursor
stays within the corpus, `typingProgress = readPosition / corpusLength ≤ 1`
after every tick and `ackProgress ≤ 1` on every acknowledgement. -/
theorem claim6_amended :
    ∀ (chunkText : List Nat) (intervalTime : Rat) (startTime : Int) (es : List Event),
      noTrailingCR (normalizeText chunkText) →
      (∀ e ∈ es, ackCsnBounded (normalizeText chunkText).length e = true) →
      inUnitInterval
        (run (initGlobal chunkText intervalTime startTime) es).session.metrics.typingProgress ∧
      inUnitInterval
        (run (initGlobal chunkText intervalTime startTime) es).session.metrics.ackProgress ∧
      (run (initGlobal chunkText intervalTime startTime) es).session.readPosition
        ≤ (normalizeText chunkText).length := by
  intro chunkText intervalTime startTime es hCR hQ
  have main :
      (run (initGlobal chunkText intervalTime startTime) es).session.chunk
          = normalizeText chunkText ∧
      progressInv (run (initGlobal chunkText intervalTime startTime) es).session := by
    refine run_invariant
      (fun g => g.session.chunk = normalizeText chunkText ∧ progressInv g.session)
      (fun e => ackCsnBounded (normalizeText chunkText).length e = true)
      ?_ es (initGlobal chunkText intervalTime startTime) hQ
      ⟨rfl, by simp [progressInv, initGlobal, initSession, initMetrics, inUnitInterval,
        normalizeText]⟩
    intro g e he hp
    obtain ⟨hchunk, hinv⟩ := hp
    cases e with
    | togglePlay => exact ⟨hchunk, hinv⟩
    | typeTick now =>
      refine ⟨(typeTickStep_chunk _ _ _).trans hchunk, ?_⟩
      show progressInv (typeTickStep g.play now g.session)
      simp only [typeTickStep]
      repeat' split
      · exact hinv
      · exact typeStep_progressInv g.play now g.session (by rw [hchunk]; exact hCR) hinv
      · exact typeStep_progressInv g.play now g.session (by rw [hchunk]; exact hCR) hinv
    | ack now m =>
      refine ⟨(ackStep_chunk _ _ _).trans hchunk, ?_⟩
      have hcsn : m.clientSequenceNumber ≤ g.session.chunk.length := by
        have hb := he
        simp only [ackCsnBounded, decide_eq_true_eq] at hb
        rw [hchunk]
        exact hb
      exact ackStep_progressInv now m g.session hcsn hinv
    | metricsTick now =>
      refine ⟨((metricsTick_session_frame _ _).1).trans hchunk, ?_⟩
      obtain ⟨hrp, htp, hap⟩ := hinv
      refine ⟨?_, ?_, ?_⟩
      · show (metricsTick now g.session).readPosition
            ≤ (metricsTick now g.session).chunk.length
        rw [(metricsTick_session_frame now g.session).2.2.2.2.2.2.2.1,
          (metricsTick_session_frame now g.session).1]
        exact hrp
      · show inUnitInterval (metricsTick now g.session).metrics.typingProgress
        rw [(metricsTick_session_frame now g.session).2.2.2.2.2.2.2.2.2.2.2]
        exact htp
      · show inUnitInterval (metricsTick now g.session).metrics.ackProgress
        rw [(metricsTick_session_frame now g.session).2.2.2.2.2.2.2.2.2.2.2]
        exact hap
  obtain ⟨hchunk, hinv⟩ := main
  obtain ⟨h1, h2, h3⟩ := hinv
  rw [hchunk] at h1
  exact ⟨h2, h3, h1⟩

theorem claim6_amended_witness :
    inUnitInterval
      (run (initGlobal [97, 98] 0 0)
        [Event.togglePlay, Event.typeTick 1,
         Event.ack 3 { clientSequenceNumber := 1, clientIdMatches := true, ping := none }]).session.metrics.typingProgress ∧
    inUnitInterval
      (run (initGlobal [97, 98] 0 0)
        [Event.togglePlay, Event.typeTick 1,
         Event.ack 3 { clientSequenceNumber := 1, clientIdMatches := true, ping := none }]).session.metrics.ackProgress := by
  have h := claim6_amended [97, 98] 0 0
    [Event.togglePlay, Event.typeTick 1,
     Event.ack 3 { clientSequenceNumber := 1, clientIdMatches := true, ping := none }]
    (by show ([97, 98] : List Nat).getLast? ≠ some 13; decide) (by decide)
  exact ⟨h.1, h.2.1⟩

/-! ### Claim C4 -/

/-- An unattributed message leaves the session untouched. -/
theorem ackStep_not_attributed (now : Int) (m : OpMessage) (s : ChunkSession)
    (h : ¬ (m.clientSequenceNumber ≠ 0 ∧ m.clientIdMatches = true)) :
    ackStep now m s = s := by
  simp [ackStep, h]

/-- An attributed message processed after the running-calculation delay pops
exactly one entry (the last) from `messageStart`. -/
theorem ackStep_pop (now : Int) (m : OpMessage) (s : ChunkSession)
    (hattr : m.clientSequenceNumber ≠ 0 ∧ m.clientIdMatches = true)
    (hd : RunningCalculationDelay < now - s.startTime) :
    (ackStep now m s).messageStart = s.messageStart.dropLast := by
  simp only [ackStep, progressCallbackPhase, completionPhase, latencyPhase, ackWindowPhase,
    if_pos hattr]
  repeat' split
  all_goals simp_all

/-- The attributed-acknowledgement instrumentation counts the trace's
attributed acknowledgements. -/
theorem run_ackedOps (es : List Event) : ∀ (g : GlobalState),
    (run g es).session.ackedOps = g.session.ackedOps + ackCountAttr es := by
  induction es with
  | nil => intro g; simp [run_nil, ackCountAttr]
  | cons e es ih =>
    intro g
    rw [run_cons, ih (step g e), ackCountAttr_cons]
    have : (step g e).session.ackedOps
        = g.session.ackedOps + (if isAttributedAck e = true then 1 else 0) := by
      cases e with
      | togglePlay => simp [step, togglePlay, isAttributedAck]
      | typeTick now => simp [step, typeTickStep_ackedOps, isAttributedAck]
      | metricsTick now =>
        simp [step, (metricsTick_session_frame now g.session).2.2.2.2.2.2.2.2.2.2.1,
          isAttributedAck]
      | ack now m =>
        show (ackStep now m g.session).ackedOps = _
        rw [ackStep_ackedOps]
        simp [isAttributedAck]
    rw [this]
    omega

theorem ackCountAttr_append_one (es : List Event) (e : Event) :
    ackCountAttr (es ++ [e])
      = ackCountAttr es + (if isAttributedAck e = true then 1 else 0) := by
  simp only [ackCountAttr, List.filter_append, List.length_append]
  congr 1
  simp [List.filter]
  split <;> simp_all

/-- The send/ack balance invariant behind claim C4: as long as every
attributed acknowledgement arrives after the running-calculation delay and,
at every point of the run, the acknowledgements attributed so far do not
outnumber the operations emitted so far, the number of outstanding send
timestamps is exactly (emitted operations) - (attributed acknowledgements). -/
theorem c4_balance (chunkText : List Nat) (intervalTime : Rat) (startTime : Int) :
    ∀ (es : List Event),
      (∀ e ∈ es, isAttributedAck e = true → ackPostDelay startTime e = true) →
      (∀ n, n < es.length + 1 →
        ackCountAttr (es.take n)
          ≤ (run (initGlobal chunkText intervalTime startTime) (es.take n)).session.ops.length) →
      (run (initGlobal chunkText intervalTime startTime) es).session.messageStart.length
          + ackCountAttr es
        = (run (initGlobal chunkText intervalTime startTime) es).session.ops.length := by
  intro es
  induction es using List.reverseRecOn with
  | nil => intro _ _; simp [run_nil, ackCountAttr, initGlobal, initSession]
  | append_singleton es e ih =>
    intro hPost hTake
    have hPost' : ∀ x ∈ es, isAttributedAck x = true → ackPostDelay startTime x = true :=
      fun x hx => hPost x (List.mem_append_left _ hx)
    have hTake' : ∀ n, n < es.length + 1 →
        ackCountAttr (es.take n)
          ≤ (run (initGlobal chunkText intervalTime startTime) (es.take n)).session.ops.length := by
      intro n hn
      have hEq : (es ++ [e]).take n = es.take n :=
        List.take_append_of_le_length (by omega)
      have := hTake n (by simp; omega)
      rwa [hEq] at this
    have IH := ih hPost' hTake'
    set gs := run (initGlobal chunkText intervalTime startTime) es with hgs
    rw [run_append]
    cases e with
    | togglePlay =>
      show gs.session.messageStart.length + _ = gs.session.ops.length
      rw [ackCountAttr_append_one]
      have hif : (if isAttributedAck Event.togglePlay = true then 1 else 0) = 0 := by
        simp [isAttributedAck]
      rw [hif]
      omega
    | typeTick now =>
      show (typeTickStep gs.play now gs.session).messageStart.length + _
          = (typeTickStep gs.play now gs.session).ops.length
      rw [ackCountAttr_append_one]
      have hif : (if isAttributedAck (Event.typeTick now) = true then 1 else 0) = 0 := by
        simp [isAttributedAck]
      rw [hif]
      have hbal := typeTickStep_opsBalance gs.play now gs.session
      omega
    | metricsTick now =>
      show (metricsTick now gs.session).messageStart.length + _
          = (metricsTick now gs.session).ops.length
      rw [(metricsTick_session_frame now gs.session).2.2.2.1,
        (metricsTick_session_frame now gs.session).2.2.1,
        ackCountAttr_append_one]
      have hif : (if isAttributedAck (Event.metricsTick now) = true then 1 else 0) = 0 := by
        simp [isAttributedAck]
      rw [hif]
      omega
    | ack now m =>
      show (ackStep now m gs.session).messageStart.length + _
          = (ackStep now m gs.session).ops.length
      rw [ackStep_ops, ackCountAttr_append_one]
      by_cases hattr : m.clientSequenceNumber ≠ 0 ∧ m.clientIdMatches = true
      · have hif : (if isAttributedAck (Event.ack now m) = true then 1 else 0) = 1 := by
          simp [isAttributedAck, hattr]
        rw [hif]
        have hdel : RunningCalculationDelay < now - startTime := by
          have := hPost (Event.ack now m) (List.mem_append_right _ (by simp))
            (by simp [isAttributedAck, hattr])
          simpa [ackPostDelay] using this
        have hstart : gs.session.startTime = startTime := by
          rw [hgs]
          exact (run_chunk_startTime es (initGlobal chunkText intervalTime startTime)).2
        have hpop := ackStep_pop now m gs.session hattr (by rw [hstart]; exact hdel)
        rw [hpop]
        have hfull := hTake (es.length + 1) (by simp)
        have htakeAll : (es ++ [Event.ack now m]).take (es.length + 1)
            = es ++ [Event.ack now m] := by
          have h1 : (es ++ [Event.ack now m]).length = es.length + 1 := by simp
          rw [← h1]
          exact List.take_length _
        rw [htakeAll] at hfull
        have hcntfull : ackCountAttr (es ++ [Event.ack now m]) = ackCountAttr es + 1 := by
          rw [ackCountAttr_append_one, hif]
        have hopsfull :
            (run (initGlobal chunkText intervalTime startTime)
              (es ++ [Event.ack now m])).session.ops.length
              = gs.session.ops.length := by
          rw [run_append, ← hgs]
          exact congrArg List.length (ackStep_ops now m gs.session)
        rw [hcntfull, hopsfull] at hfull
        have hlen := List.length_dropLast gs.session.messageStart
        omega
      · have hif : (if isAttributedAck (Event.ack now m) = true then 1 else 0) = 0 := by
          simp [isAttributedAck, hattr]
        rw [hif, ackStep_not_attributed now m gs.session hattr]
        omega

/-- Play toggled, one character typed at time 1, its acknowledgement
processed at time 2 — before the running-calculation delay has elapsed. -/
def c4Events : List Event :=
  [Event.togglePlay, Event.typeTick 1,
   Event.ack 2 { clientSequenceNumber := 1, clientIdMatches := true, ping := none }]

/-- Claim C4 counterexample: the claim says the correlator holds no
outstanding entry once every emitted operation has been acknowledged.  On a
run where the single emitted operation has been acknowledged (one attributed
acknowledgement, one emitted operation) but the acknowledgement arrived
within the 10-second running-calculation delay, the delay-gated handler
skips the pop and the send timestamp stays outstanding. -/
theorem claim4_counterexample :
    (run (initGlobal [97] 0 0) c4Events).session.messageStart = [1] ∧
    ackCountAttr c4Events = 1 ∧
    (run (initGlobal [97] 0 0) c4Events).session.ops.length = 1 ∧
    ¬ (run (initGlobal [97] 0 0) c4Events).session.messageStart = [] := by
  decide

/-- Claim C4, amended: the handler consumes at most one outstanding entry
per acknowledgement (unconditionally); and provided every attributed
acknowledgement is processed after the running-calculation delay — the
delay-gated branch is the only one that pops — and acknowledgements never
outnumber the emitted operations at any point of the run, the number of
outstanding entries is exactly (emitted operations) − (attributed
acknowledgements); in particular, once every emitted operation has been
acknowledged the correlator holds no entry. -/
theorem claim4_correlator :
    (∀ (now : Int) (m : OpMessage) (s : ChunkSession),
      s.messageStart.length ≤ (ackStep now m s).messageStart.length + 1) ∧
    (∀ (chunkText : List Nat) (intervalTime : Rat) (startTime : Int) (es : List Event),
      (∀ e ∈ es, isAttributedAck e = true → ackPostDelay startTime e = true) →
      (∀ n, n < es.length + 1 →
        ackCountAttr (es.take n)
          ≤ (run (initGlobal chunkText intervalTime startTime) (es.take n)).session.ops.length) →
      ((run (initGlobal chunkText intervalTime startTime) es).session.messageStart.length
          + ackCountAttr es
        = (run (initGlobal chunkText intervalTime startTime) es).session.ops.length) ∧
      (ackCountAttr es
          = (run (initGlobal chunkText intervalTime startTime) es).session.ops.length →
        (run (initGlobal chunkText intervalTime startTime) es).session.messageStart = [])) := by
  constructor
  · intro now m s
    rcases ackStep_messageStart_cases now m s with h | h
    · rw [h]; omega
    · rw [h, List.length_dropLast]; omega
  · intro chunkText intervalTime startTime es hPost hTake
    have hbal := c4_balance chunkText intervalTime startTime es hPost hTake
    refine ⟨hbal, fun hEq => ?_⟩
    have hzero :
        (run (initGlobal chunkText intervalTime startTime) es).session.messageStart.length
          = 0 := by omega
    exact List.eq_nil_of_length_eq_zero hzero

theorem claim4_correlator_witness :
    (run (initGlobal [97] 0 0)
      [Event.togglePlay, Event.typeTick 1,
       Event.ack 20000
         { clientSequenceNumber := 1, clientIdMatches := true, ping := none }
       ]).session.messageStart = [] := by
  refine (claim4_correlator.2 [97] 0 0
    [Event.togglePlay, Event.typeTick 1,
     Event.ack 20000 { clientSequenceNumber := 1, clientIdMatches := true, ping := none }]
    (by decide) (by decide)).2 (by decide)

/-! ### Claim C5 -/

/-- Closed form of the streaming estimator state: after any sample list the
count and sum are the batch count and sum, the mean is the batch mean, and
the Welford accumulator `m2` equals `Σ x² - (Σ x)² / n` (all divisions are
the total `Rat` divisions, so the empty case degenerates to 0 = 0). -/
theorem runEstimator_spec (xs : List Rat) :
    (runEstimator xs).n = xs.length ∧
    (runEstimator xs).sum = xs.sum ∧
    (runEstimator xs).mean = xs.sum / ((xs.length : Nat) : Rat) ∧
    (runEstimator xs).m2
      = (xs.map fun x => x ^ 2).sum - xs.sum ^ 2 / ((xs.length : Nat) : Rat) := by
  induction xs using List.reverseRecOn with
  | nil => refine ⟨rfl, rfl, by simp [runEstimator], by simp [runEstimator]⟩
  | append_singleton xs x ih =>
    obtain ⟨ihn, ihsum, ihmean, ihm2⟩ := ih
    have hstep : runEstimator (xs ++ [x]) = latencyUpdate x (runEstimator xs) := by
      simp [runEstimator, List.foldl_append]
    rcases Nat.eq_zero_or_pos xs.length with hz | hpos
    · have hxs : xs = [] := List.eq_nil_of_length_eq_zero hz
      subst hxs
      refine ⟨by simp [hstep, latencyUpdate, runEstimator], ?_, ?_, ?_⟩ <;>
        simp [hstep, latencyUpdate, runEstimator]
    · have hn : ((xs.length : Nat) : Rat) ≠ 0 := by
        exact_mod_cast Nat.pos_iff_ne_zero.mp hpos
      have hn1 : ((xs.length : Nat) : Rat) + 1 ≠ 0 := by positivity
      refine ⟨?_, ?_, ?_, ?_⟩
      · simp [hstep, latencyUpdate, ihn]
      · simp [hstep, latencyUpdate, ihsum]
      · simp only [hstep, latencyUpdate, ihn, ihsum, List.sum_append, List.length_append,
          List.sum_cons, List.sum_nil, List.length_cons, List.length_nil]
        push_cast
        ring
      · simp only [hstep, latencyUpdate, ihn, ihsum, ihmean, ihm2, List.sum_append,
          List.map_append, List.length_append, List.sum_cons, List.sum_nil,
          List.map_cons, List.map_nil, List.length_cons, List.length_nil]
        push_cast
        field_simp
        ring

/-- Sum of squared deviations from a constant, expanded. -/
theorem sum_sq_sub_const (c : Rat) : ∀ (xs : List Rat),
    (xs.map fun x => (x - c) ^ 2).sum
      = (xs.map fun x => x ^ 2).sum - 2 * c * xs.sum
        + ((xs.length : Nat) : Rat) * c ^ 2 := by
  intro xs
  induction xs with
  | nil => simp
  | cons a as ih =>
    simp only [List.map_cons, List.sum_cons, List.length_cons, ih]
    push_cast
    ring

/-- The batch sample variance in the same closed form as the accumulator. -/
theorem batchSampleVariance_closed (xs : List Rat) :
    batchSampleVariance xs
      = ((xs.map fun x => x ^ 2).sum - xs.sum ^ 2 / ((xs.length : Nat) : Rat))
        / (((xs.length : Nat) : Rat) - 1) := by
  unfold batchSampleVariance batchMean
  rw [sum_sq_sub_const]
  rcases Nat.eq_zero_or_pos xs.length with hz | hpos
  · have hxs : xs = [] := List.eq_nil_of_length_eq_zero hz
    subst hxs
    simp
  · have hn : ((xs.length : Nat) : Rat) ≠ 0 := by
      exact_mod_cast Nat.pos_iff_ne_zero.mp hpos
    congr 1
    field_simp
    ring

/-- The latency branch of the handler advances the session's Welford
projection exactly by `latencyUpdate` on the measured round trip. -/
theorem ackStep_latencyAcc (now : Int) (m : OpMessage) (s : ChunkSession)
    (t : Int)
    (h1 : m.clientSequenceNumber ≠ 0) (h2 : m.clientIdMatches = true)
    (hd : RunningCalculationDelay < now - s.startTime)
    (hlast : s.messageStart.getLast? = some t) :
    (ackStep now m s).latencyAcc = latencyUpdate ((now - t : Int) : Rat) s.latencyAcc := by
  simp only [ackStep, progressCallbackPhase, completionPhase, latencyPhase, ackWindowPhase,
    if_pos (And.intro h1 h2), ChunkSession.latencyAcc]
  repeat' split
  all_goals simp_all [latencyUpdate, RateCounter.increment, RateCounter.getSamples,
    RateCounter.getValue]

/-- Claim C5: over exact arithmetic, the running estimator matches the batch
computation for every sample sequence — its mean is the batch mean and its
reported `stdDev/(n-1)` radicand is the batch sample variance, hence the
reported standard deviation (the square root) matches the batch sample
standard deviation; after exactly one sample the reported value is 0; and
the acknowledgement handler's latency branch evolves the session's
estimator state exactly by this update on the measured round trip. -/
theorem claim5_welford :
    (∀ xs : List Rat,
      (runEstimator xs).mean = batchMean xs ∧
      (runEstimator xs).reportedVariance = batchSampleVariance xs ∧
      Real.sqrt (((runEstimator xs).reportedVariance : Rat) : Real)
        = Real.sqrt ((batchSampleVariance xs : Rat) : Real)) ∧
    (∀ x : Rat, (runEstimator [x]).reportedVariance = 0) ∧
    (∀ (now : Int) (m : OpMessage) (s : ChunkSession) (t : Int),
      m.clientSequenceNumber ≠ 0 → m.clientIdMatches = true →
      RunningCalculationDelay < now - s.startTime →
      s.messageStart.getLast? = some t →
      (ackStep now m s).latencyAcc
        = latencyUpdate ((now - t : Int) : Rat) s.latencyAcc) := by
  have hvar : ∀ xs : List Rat,
      (runEstimator xs).reportedVariance = batchSampleVariance xs := by
    intro xs
    obtain ⟨hn, _, _, hm2⟩ := runEstimator_spec xs
    rw [batchSampleVariance_closed, LatencyAcc.reportedVariance, hn, hm2]
    rcases Nat.lt_or_ge 1 xs.length with h1 | h1
    · rw [if_pos h1]
    · rw [if_neg (by omega)]
      interval_cases h : xs.length
      · have hxs : xs = [] := List.eq_nil_of_length_eq_zero h
        subst hxs
        simp
      · norm_num
  refine ⟨fun xs => ⟨?_, hvar xs, ?_⟩, fun x => ?_, ackStep_latencyAcc⟩
  · obtain ⟨_, _, hmean, _⟩ := runEstimator_spec xs
    rw [hmean]
    rfl
  · have := hvar xs
    exact congrArg Real.sqrt (by exact_mod_cast this)
  · rw [hvar [x], batchSampleVariance_closed]
    simp

theorem claim5_welford_witness :
    (runEstimator [3, 5]).mean = batchMean [3, 5] ∧
    (ackStep 20000 { clientSequenceNumber := 1, clientIdMatches := true, ping := none }
        (run (initGlobal [97, 98] 0 0)
          [Event.togglePlay, Event.typeTick 100, Event.typeTick 200]).session).latencyAcc
      = latencyUpdate ((20000 - 200 : Int) : Rat)
        (run (initGlobal [97, 98] 0 0)
          [Event.togglePlay, Event.typeTick 100, Event.typeTick 200]).session.latencyAcc :=
  ⟨(claim5_welford.1 [3, 5]).1,
   claim5_welford.2.2 20000
     { clientSequenceNumber := 1, clientIdMatches := true, ping := none }
     (run (initGlobal [97, 98] 0 0)
       [Event.togglePlay, Event.typeTick 100, Event.typeTick 200]).session
     200 (by decide) (by decide) (by decide) (by decide)⟩

/-! ### Claim C10 -/

/-- Claim C10: the global play flag starts out `false` (paused), so in any
run that never toggles it, no insertion operation of any kind is submitted
and no send timestamp is recorded, whatever the corpus, pacing interval,
start time and event interleaving are. -/
theorem claim10_paused_until_toggle :
    ∀ (chunkText : List Nat) (intervalTime : Rat) (startTime : Int) (es : List Event),
      (∀ e ∈ es, isToggle e = false) →
      (run (initGlobal chunkText intervalTime startTime) es).play = false ∧
      (run (initGlobal chunkText intervalTime startTime) es).session.ops = [] ∧
      (run (initGlobal chunkText intervalTime startTime) es).session.messageStart = [] := by
  intro chunkText intervalTime startTime es hq
  refine run_invariant
    (fun g => g.play = false ∧ g.session.ops = [] ∧ g.session.messageStart = [])
    (fun e => isToggle e = false) ?_ es _ hq ⟨rfl, rfl, rfl⟩
  intro g e he hp
  obtain ⟨hplay, hops, hms⟩ := hp
  cases e with
  | togglePlay => exact absurd he (by simp [isToggle])
  | typeTick now =>
    refine ⟨hplay, ?_, ?_⟩
    · show (typeTickStep g.play now g.session).ops = []
      rw [hplay]
      exact ((typeTickStep_false_frame now g.session).1).trans hops
    · show (typeTickStep g.play now g.session).messageStart = []
      rw [hplay]
      exact ((typeTickStep_false_frame now g.session).2).trans hms
  | ack now m =>
    refine ⟨hplay, ?_, ?_⟩
    · exact (ackStep_ops _ _ _).trans hops
    · show (ackStep now m g.session).messageStart = []
      rcases ackStep_messageStart_cases now m g.session with h | h
      · exact h.trans hms
      · rw [h, hms]; rfl
  | metricsTick now =>
    exact ⟨hplay, ((metricsTick_session_frame _ _).2.2.1).trans hops,
      ((metricsTick_session_frame _ _).2.2.2.1).trans hms⟩

/-! ### Claim C3 -/

/-- Each event appends at most one snapshot to the callback log: exactly one
for an attributed acknowledgement, none otherwise. -/
theorem step_callbackLog (g : GlobalState) (e : Event) :
    ∃ t : List IScribeMetrics,
      (step g e).session.callbackLog = g.session.callbackLog ++ t ∧
      t.length = (if isAttributedAck e = true then 1 else 0) := by
  cases e with
  | togglePlay => exact ⟨[], by simp [step, togglePlay, isAttributedAck]⟩
  | typeTick now =>
    exact ⟨[], by simp [step, typeTickStep_callbackLog, isAttributedAck]⟩
  | ack now m =>
    by_cases h : m.clientSequenceNumber ≠ 0 ∧ m.clientIdMatches = true
    · refine ⟨[(ackStep now m g.session).metrics], ?_, ?_⟩
      · show (ackStep now m g.session).callbackLog = _
        rw [ackStep_callbackLog]
        simp [h]
      · simp [isAttributedAck, h]
    · refine ⟨[], ?_, ?_⟩
      · show (ackStep now m g.session).callbackLog = _
        rw [ackStep_callbackLog]
        simp [h]
      · simp [isAttributedAck, h]
  | metricsTick now =>
    exact ⟨[], by
      simp [step, (metricsTick_session_frame now g.session).2.2.2.2.2.2.1,
        isAttributedAck]⟩

/-- One callback snapshot per attributed acknowledgement along any run. -/
theorem run_callbackLog_len (es : List Event) : ∀ (g : GlobalState),
    (run g es).session.callbackLog.length
      = g.session.callbackLog.length + ackCountAttr es := by
  induction es with
  | nil => intro g; simp [run_nil, ackCountAttr]
  | cons e es ih =>
    intro g
    rw [run_cons, ih (step g e), ackCountAttr_cons]
    obtain ⟨t, ht, hlen⟩ := step_callbackLog g e
    rw [ht]
    simp only [List.length_append, hlen]
    omega

/-- The callback log is append-only: extending a run never rewrites the
snapshots already handed out. -/
theorem run_callbackLog_extends (more : List Event) : ∀ (g : GlobalState),
    ∃ t, (run g more).session.callbackLog = g.session.callbackLog ++ t := by
  induction more with
  | nil => intro g; exact ⟨[], by simp [run_nil]⟩
  | cons e more ih =>
    intro g
    obtain ⟨t1, h1, _⟩ := step_callbackLog g e
    obtain ⟨t2, h2⟩ := ih (step g e)
    exact ⟨t1 ++ t2, by rw [run_cons, h2, h1, List.append_assoc]⟩

/-- Two characters typed, one attributed post-delay acknowledgement (which
defines the latency metrics), then one metrics-interval tick. -/
def c3Events : List Event :=
  [Event.togglePlay, Event.typeTick 1, Event.typeTick 2,
   Event.ack 10002 { clientSequenceNumber := 1, clientIdMatches := true, ping := none },
   Event.metricsTick 10003]

/-- Claim C3 counterexample: the claim says the caller's metrics callback is
invoked on every attributed acknowledgement AND on every periodic tick.  On
a run with one attributed acknowledgement and one periodic tick — the tick
demonstrably executed its body, since the chart write index advanced to 1 —
the callback was invoked exactly once, not twice: the periodic tick never
calls the caller's callback (it only publishes chart data to the metrics
document). -/
theorem claim3_counterexample :
    (run (initGlobal [97, 98] 0 0) c3Events).session.callbackLog.length = 1 ∧
    ackCountAttr c3Events + metricsTickCount c3Events = 2 ∧
    (run (initGlobal [97, 98] 0 0) c3Events).session.chartData.index = 1 ∧
    ¬ ((run (initGlobal [97, 98] 0 0) c3Events).session.callbackLog.length
        = ackCountAttr c3Events + metricsTickCount c3Events) := by
  decide

/-- Claim C3, amended: the caller's callback is invoked with a fresh,
independently-owned snapshot on every acknowledgement attributed to the
session — and only on those: periodic ticks publish chart configurations but
never invoke the callback.  Freshness is captured by value semantics plus
append-only behaviour: every logged snapshot is a value (the source passes
`clone(metrics)`), and extending the run with arbitrary further events never
alters the snapshots already handed out. -/
theorem claim3_amended :
    ∀ (chunkText : List Nat) (intervalTime : Rat) (startTime : Int)
      (es more : List Event),
      (run (initGlobal chunkText intervalTime startTime) es).session.callbackLog.length
        = ackCountAttr es ∧
      ∃ t, (run (initGlobal chunkText intervalTime startTime) (es ++ more)).session.callbackLog
          = (run (initGlobal chunkText intervalTime startTime) es).session.callbackLog ++ t := by
  intro chunkText intervalTime startTime es more
  constructor
  · rw [run_callbackLog_len es (initGlobal chunkText intervalTime startTime)]
    simp [initGlobal, initSession]
  · rw [run_append]
    exact run_callbackLog_extends more _

/-! ### Claim C2 -/

/-- `resolved` over a run: the session has resolved exactly when some
attributed acknowledgement so far carried a client sequence number at or
beyond the corpus length. -/
theorem run_resolved (es : List Event) : ∀ (g : GlobalState),
    (run g es).session.resolved
      = (g.session.resolved ||
        (attributedAcks es).any fun m =>
          decide (g.session.chunk.length ≤ m.clientSequenceNumber)) := by
  induction es with
  | nil => intro g; simp [run_nil, attributedAcks]
  | cons e es ih =>
    intro g
    rw [run_cons, ih (step g e)]
    have hchunk : (step g e).session.chunk = g.session.chunk := by
      cases e with
      | togglePlay => rfl
      | typeTick now => exact typeTickStep_chunk _ _ _
      | ack now m => exact ackStep_chunk _ _ _
      | metricsTick now => exact (metricsTick_session_frame _ _).1
    rw [hchunk]
    cases e with
    | togglePlay => simp [attributedAcks, step, togglePlay]
    | typeTick now =>
      show ((typeTickStep g.play now g.session).resolved || _) = _
      rw [typeTickStep_resolved]
      simp [attributedAcks]
    | metricsTick now =>
      show ((metricsTick now g.session).resolved || _) = _
      rw [(metricsTick_session_frame now g.session).2.2.2.2.1]
      simp [attributedAcks]
    | ack now m =>
      show ((ackStep now m g.session).resolved || _) = _
      rw [ackStep_resolved]
      by_cases h : m.clientSequenceNumber ≠ 0 ∧ m.clientIdMatches = true
      · simp [attributedAcks, List.filterMap_cons, h, Bool.or_assoc]
      · simp [attributedAcks, List.filterMap_cons, h]

/-- Same fact for the timer clearance: it happens with the resolution. -/
theorem run_intervalCleared (es : List Event) : ∀ (g : GlobalState),
    (run g es).session.intervalCleared
      = (g.session.intervalCleared ||
        (attributedAcks es).any fun m =>
          decide (g.session.chunk.length ≤ m.clientSequenceNumber)) := by
  induction es with
  | nil => intro g; simp [run_nil, attributedAcks]
  | cons e es ih =>
    intro g
    rw [run_cons, ih (step g e)]
    have hchunk : (step g e).session.chunk = g.session.chunk := by
      cases e with
      | togglePlay => rfl
      | typeTick now => exact typeTickStep_chunk _ _ _
      | ack now m => exact ackStep_chunk _ _ _
      | metricsTick now => exact (metricsTick_session_frame _ _).1
    rw [hchunk]
    cases e with
    | togglePlay => simp [attributedAcks, step, togglePlay]
    | typeTick now =>
      show ((typeTickStep g.play now g.session).intervalCleared || _) = _
      rw [typeTickStep_intervalCleared]
      simp [attributedAcks]
    | metricsTick now =>
      show ((metricsTick now g.session).intervalCleared || _) = _
      rw [(metricsTick_session_frame now g.session).2.2.2.2.2.1]
      simp [attributedAcks]
    | ack now m =>
      show ((ackStep now m g.session).intervalCleared || _) = _
      rw [ackStep_intervalCleared]
      by_cases h : m.clientSequenceNumber ≠ 0 ∧ m.clientIdMatches = true
      · simp [attributedAcks, List.filterMap_cons, h, Bool.or_assoc]
      · simp [attributedAcks, List.filterMap_cons, h]

/-- Under an in-order 1:1 transport (the j-th attributed acknowledgement
carries client sequence number j+1), some attributed acknowledgement reaches
the threshold `L ≥ 1` exactly when at least `L` of them arrived. -/
theorem anyReaches_iff (ms : List OpMessage) (L : Nat) (hL : 1 ≤ L)
    (hseq : ∀ j (h : j < ms.length), (ms.get ⟨j, h⟩).clientSequenceNumber = j + 1) :
    ((ms.any fun m => decide (L ≤ m.clientSequenceNumber)) = true) ↔ L ≤ ms.length := by
  constructor
  · intro h
    obtain ⟨m, hm, hge⟩ := List.any_eq_true.mp h
    obtain ⟨⟨j, hj⟩, rfl⟩ := List.mem_iff_get.mp hm
    have := hseq j hj
    rw [this] at hge
    have : L ≤ j + 1 := of_decide_eq_true hge
    omega
  · intro h
    refine List.any_eq_true.mpr ⟨ms.get ⟨L - 1, by omega⟩, List.get_mem _ _ _, ?_⟩
    rw [hseq (L - 1) (by omega)]
    exact decide_eq_true (by omega)

/-- The resolution branch of the handler: an attributed message whose client
sequence number has reached the corpus length clears the interval, stores
the elapsed time and resolves. -/
theorem ackStep_resolves_now (now : Int) (m : OpMessage) (u : ChunkSession)
    (h1 : m.clientSequenceNumber ≠ 0) (h2 : m.clientIdMatches = true)
    (h3 : u.chunk.length ≤ m.clientSequenceNumber) :
    (ackStep now m u).resolved = true ∧
    (ackStep now m u).intervalCleared = true ∧
    (ackStep now m u).metrics.time = now - u.startTime := by
  simp only [ackStep, progressCallbackPhase, completionPhase, latencyPhase,
    ackWindowPhase, if_pos (And.intro h1 h2)]
  repeat' split
  all_goals simp_all

/-- Claim C2: with a corpus of positive length `L` and an in-order transport
delivering exactly one acknowledgement per submitted operation (so the j-th
acknowledgement attributed to the session carries client sequence number
j+1), the session reaches its terminal state — promise resolved AND metrics
interval cleared — exactly when the attributed-acknowledgement count has
reached `L`, and not before; moreover the resolving acknowledgement stores
the elapsed time `now - startTime` into the metrics. -/
theorem claim2_completion_iff :
    ∀ (chunkText : List Nat) (intervalTime : Rat) (startTime : Int) (es : List Event),
      1 ≤ (normalizeText chunkText).length →
      (∀ j (h : j < (attributedAcks es).length),
        ((attributedAcks es).get ⟨j, h⟩).clientSequenceNumber = j + 1) →
      (((run (initGlobal chunkText intervalTime startTime) es).session.resolved = true)
        ↔ (normalizeText chunkText).length ≤ (attributedAcks es).length) ∧
      (((run (initGlobal chunkText intervalTime startTime) es).session.intervalCleared = true)
        ↔ (normalizeText chunkText).length ≤ (attributedAcks es).length) ∧
      (∀ (now : Int) (m : OpMessage) (u : ChunkSession),
        m.clientSequenceNumber ≠ 0 → m.clientIdMatches = true →
        u.chunk.length ≤ m.clientSequenceNumber →
        (ackStep now m u).resolved = true ∧
        (ackStep now m u).intervalCleared = true ∧
        (ackStep now m u).metrics.time = now - u.startTime) := by
  intro chunkText intervalTime startTime es hL hseq
  have hchunk :
      (initGlobal chunkText intervalTime startTime).session.chunk
        = normalizeText chunkText := rfl
  refine ⟨?_, ?_, fun now m u => ackStep_resolves_now now m u⟩
  · rw [run_resolved es (initGlobal chunkText intervalTime startTime), hchunk]
    simpa [initGlobal, initSession] using
      anyReaches_iff (attributedAcks es) (normalizeText chunkText).length hL hseq
  · rw [run_intervalCleared es (initGlobal chunkText intervalTime startTime), hchunk]
    simpa [initGlobal, initSession] using
      anyReaches_iff (attributedAcks es) (normalizeText chunkText).length hL hseq

theorem claim2_completion_iff_witness :
    ((run (initGlobal [97] 0 0)
        [Event.ack 5 { clientSequenceNumber := 1, clientIdMatches := true, ping := none }]).session.resolved
      = true) ∧
    ¬ (run (initGlobal [97] 0 0) []).session.resolved = true := by
  have h := claim2_completion_iff [97] 0 0
    [Event.ack 5 { clientSequenceNumber := 1, clientIdMatches := true, ping := none }]
    (by decide)
    (by
      intro j hj
      have hj1 : j = 0 := by
        simpa [attributedAcks] using hj
      subst hj1
      rfl)
  have h0 := claim2_completion_iff [97] 0 0 [] (by decide)
    (by intro j hj; simp [attributedAcks] at hj)
  constructor
  · exact (h.1).mpr (by decide)
  · intro hc
    have := (h0.1).mp hc
    simp [attributedAcks, normalizeText] at this

theorem claim10_paused_until_toggle_witness :
    (run (initGlobal [97, 10, 98] 0 0)
        [Event.typeTick 0, Event.metricsTick 1,
         Event.ack 2 { clientSequenceNumber := 1, clientIdMatches := true, ping := none }]).session.ops
      = [] :=
  (claim10_paused_until_toggle [97, 10, 98] 0 0
    [Event.typeTick 0, Event.metricsTick 1,
     Event.ack 2 { clientSequenceNumber := 1, clientIdMatches := true, ping := none }]
    (by decide)).2.1

end Scribe
